import Mathlib

/-!
Verification of the offchain-storage pallet (src/frame/offchain-storage/src/lib.rs).

The pallet keeps, per data identifier (a byte vector), a `UserData` record
holding an author identity and an `Access` level, and gates three dispatchable
operations (`read_data`, `write_data`, `delete_data`) behind the permission
check `check_op_access`.  Payload bytes live in an external storage backend
reached through the `ExternalStorage` trait (`get`/`set`/`delete`).

We embed the pallet shallowly: the runtime storage map `Data` becomes a
function from identifiers to `Option (UserData α)`; the external backend's
`get` becomes a pure oracle `bget`; the `set`/`delete` calls and the deposited
events are recorded in trace lists of the operation result.
-/

namespace OffchainStorage

/-- Byte vectors (`Vec<u8>` in the source), used both for identifiers and
payloads. Bytes are modelled as naturals; the code never computes on them. -/
abbrev Bytes := List Nat

/-- A data identifier (`data_id: Vec<u8>` in the source). -/
abbrev DataId := List Nat

/-- The `Access` enum of the source: `Avoid`, `Read`, `Write`. -/
inductive Access
  | Avoid
  | Read
  | Write
  deriving DecidableEq, Repr

/-- `impl Default for Access` in the source returns `Access::Read`. -/
instance : Inhabited Access := ⟨Access.Read⟩

/-- `fn access_value(ac: Access) -> u8` of the source: Avoid ↦ 0, Read ↦ 1,
Write ↦ 2. The values fit in `u8` with no overflow, so `Nat` is exact. -/
def access_value : Access → Nat
  | Access.Avoid => 0
  | Access.Read => 1
  | Access.Write => 2

/-- The `UserData<AccountId>` struct of the source: an author identity plus an
access level. -/
structure UserData (α : Type) where
  author : α
  access : Access
  deriving DecidableEq, Repr

/-- The derived `Default` for `UserData`: default author identity and the
default access level `Access::Read`. -/
def defaultUserData {α : Type} [Inhabited α] : UserData α :=
  { author := default, access := Access.Read }

/-- `fn check_op_access(user, data, op) -> bool` of the source:
`access_value(data.access) >= access_value(op) || user == data.author`. -/
def check_op_access {α : Type} [DecidableEq α]
    (user : α) (data : UserData α) (op : Access) : Bool :=
  decide (access_value data.access ≥ access_value op) || decide (user = data.author)

/-- The runtime storage map `Data: map Vec<u8> => UserData` — `none` means no
record has been inserted for the identifier. -/
def MetaStore (α : Type) : Type := DataId → Option (UserData α)

/-- `<Data<T>>::exists(&data_id)` of the runtime storage map. -/
def MetaStore.existsId {α : Type} (st : MetaStore α) (data_id : DataId) : Bool :=
  (st data_id).isSome

/-- `Self::get_data(&data_id)`: the frame storage map getter returns the
stored record, or the `Default` record when the identifier is absent. -/
def MetaStore.get_data {α : Type} [Inhabited α]
    (st : MetaStore α) (data_id : DataId) : UserData α :=
  (st data_id).getD defaultUserData

/-- `<Data<T>>::insert(data_id, data)`: upsert of one record. -/
def MetaStore.insert {α : Type} (st : MetaStore α) (data_id : DataId)
    (v : UserData α) : MetaStore α :=
  fun k => if k = data_id then some v else st k

/-- `<Data<T>>::remove(data_id)`: removal of one record. -/
def MetaStore.remove {α : Type} (st : MetaStore α) (data_id : DataId) :
    MetaStore α :=
  fun k => if k = data_id then none else st k

/-- The `Error` enum declared by `decl_error!`. -/
inductive Error
  | PermissionDenied
  | ExternalError
  | NoneData
  deriving DecidableEq, Repr

/-- The `Event` enum declared by `decl_event!`: `GetData(Vec<u8>)`, deposited
by a successful read. -/
inductive Event
  | GetData (bytes : Bytes)
  deriving DecidableEq, Repr

/-- One invocation of the `ExternalStorage` trait: `get`, `set` or `delete`,
each keyed by the identifier. -/
inductive BackendCall
  | get (data_id : DataId)
  | set (data_id : DataId) (value : Bytes)
  | delete (data_id : DataId)
  deriving DecidableEq, Repr

/-- Outcome of one dispatchable call: the `DispatchResult`, the metadata store
after the call, the backend calls made, and the events deposited. -/
structure OpResult (α : Type) where
  result : Except Error Unit
  meta : MetaStore α
  calls : List BackendCall
  events : List Event

/-- `fn read_data(origin, data_id)` of `decl_module!`: existence check, then
permission check at `Access::Read`, then `T::Storage::get` and a `GetData`
event carrying the returned bytes. `bget` is the backend's `get` oracle. -/
def read_data {α : Type} [DecidableEq α] [Inhabited α] (bget : DataId → Bytes)
    (st : MetaStore α) (user : α) (data_id : DataId) : OpResult α :=
  if MetaStore.existsId st data_id then
    let data := MetaStore.get_data st data_id
    if ! check_op_access user data Access.Read then
      ⟨Except.error Error.PermissionDenied, st, [], []⟩
    else
      ⟨Except.ok (), st, [BackendCall.get data_id], [Event.GetData (bget data_id)]⟩
  else
    ⟨Except.error Error.NoneData, st, [], []⟩

/-- `fn write_data(origin, data_id, write_data)` of `decl_module!`: no
existence check — `get_data` yields the default record when absent; the
permission check is made at `Access::Read`; on success `T::Storage::set` is
invoked and the (unchanged) record is re-inserted. -/
def write_data {α : Type} [DecidableEq α] [Inhabited α]
    (st : MetaStore α) (user : α) (data_id : DataId) (wd : Bytes) : OpResult α :=
  let data := MetaStore.get_data st data_id
  if ! check_op_access user data Access.Read then
    ⟨Except.error Error.PermissionDenied, st, [], []⟩
  else
    ⟨Except.ok (), MetaStore.insert st data_id data, [BackendCall.set data_id wd], []⟩

/-- `fn delete_data(origin, data_id)` of `decl_module!`: existence check, then
permission check at `Access::Read`, then `T::Storage::delete` and removal of
the metadata record. -/
def delete_data {α : Type} [DecidableEq α] [Inhabited α]
    (st : MetaStore α) (user : α) (data_id : DataId) : OpResult α :=
  if MetaStore.existsId st data_id then
    let data := MetaStore.get_data st data_id
    if ! check_op_access user data Access.Read then
      ⟨Except.error Error.PermissionDenied, st, [], []⟩
    else
      ⟨Except.ok (), MetaStore.remove st data_id, [BackendCall.delete data_id], []⟩
  else
    ⟨Except.error Error.NoneData, st, [], []⟩

/-- The empty metadata store, used for concrete evaluations. -/
def emptyMeta : MetaStore Nat := fun _ => none

/-- A store holding exactly one record, used for concrete evaluations. -/
def singleMeta (data_id : DataId) (v : UserData Nat) : MetaStore Nat :=
  fun k => if k = data_id then some v else none

/-- A concrete backend `get` oracle for witnesses: returns the key itself. -/
def idBget : DataId → Bytes := fun k => k

/-- When the store holds a record for `data_id`, `get_data` returns it. -/
theorem get_data_of_some {α : Type} [Inhabited α] {st : MetaStore α}
    {data_id : DataId} {data : UserData α} (h : st data_id = some data) :
    MetaStore.get_data st data_id = data := by
  simp [MetaStore.get_data, h]

/-- When the store holds a record for `data_id`, `existsId` is true. -/
theorem existsId_of_some {α : Type} {st : MetaStore α}
    {data_id : DataId} {data : UserData α} (h : st data_id = some data) :
    MetaStore.existsId st data_id = true := by
  simp [MetaStore.existsId, h]

/-- Claim C1: the permission decision is exactly the spec rule — for every
caller identity, record and requested level, `check_op_access` returns true
iff `rank(record.access) ≥ rank(requested)` or `caller = record.author`,
where the rank `access_value` maps Avoid to 0, Read to 1 and Write to 2. -/
theorem claim1_permission_rule {α : Type} [DecidableEq α]
    (user : α) (data : UserData α) (op : Access) :
    (check_op_access user data op = true ↔
      (access_value data.access ≥ access_value op ∨ user = data.author))
    ∧ access_value Access.Avoid = 0
    ∧ access_value Access.Read = 1
    ∧ access_value Access.Write = 2 := by
  refine ⟨?_, rfl, rfl, rfl⟩
  simp [check_op_access]

/-- Claim C2, counterexample: on an identifier with no metadata record,
`write_data` does not fail with `NoneData` — it succeeds, because `get_data`
yields the default record (access `Read`) and the check at `Read` passes. -/
theorem claim2_counterexample :
    emptyMeta [1] = none
    ∧ (write_data emptyMeta (5 : Nat) [1] [7]).result ≠ Except.error Error.NoneData
    ∧ (write_data emptyMeta (5 : Nat) [1] [7]).result = Except.ok () := by
  refine ⟨rfl, ?_, rfl⟩
  intro h
  exact Except.noConfusion h

/-- Claim C2 (amended): for every identifier with no metadata record,
`read_data` and `delete_data` fail with `NoneData` and leave the metadata
store unchanged, while `write_data` does not fail with `NoneData` — it
succeeds. -/
theorem claim2_missing_record {α : Type} [DecidableEq α] [Inhabited α]
    (bget : DataId → Bytes) (st : MetaStore α) (user : α) (data_id : DataId)
    (wd : Bytes) (h : st data_id = none) :
    (read_data bget st user data_id).result = Except.error Error.NoneData
    ∧ (read_data bget st user data_id).meta = st
    ∧ (delete_data st user data_id).result = Except.error Error.NoneData
    ∧ (delete_data st user data_id).meta = st
    ∧ (write_data st user data_id wd).result = Except.ok () := by
  have hex : MetaStore.existsId st data_id = false := by
    simp [MetaStore.existsId, h]
  have hgd : MetaStore.get_data st data_id = defaultUserData := by
    simp [MetaStore.get_data, h]
  have hchk : check_op_access user (MetaStore.get_data st data_id) Access.Read = true := by
    rw [hgd]
    simp [check_op_access, defaultUserData, access_value]
  refine ⟨?_, ?_, ?_, ?_, ?_⟩ <;>
    simp [read_data, delete_data, write_data, hex, hchk]

/-- Witness for C2 (amended) at the empty store, caller 5, identifier [1]. -/
theorem claim2_missing_record_witness :
    emptyMeta [1] = none
    ∧ ((read_data idBget emptyMeta 5 [1]).result = Except.error Error.NoneData
       ∧ (read_data idBget emptyMeta 5 [1]).meta = emptyMeta
       ∧ (delete_data emptyMeta 5 [1]).result = Except.error Error.NoneData
       ∧ (delete_data emptyMeta 5 [1]).meta = emptyMeta
       ∧ (write_data emptyMeta 5 [1] [7]).result = Except.ok ()) :=
  ⟨rfl, claim2_missing_record idBget emptyMeta 5 [1] [7] rfl⟩

/-- Claim C3: write and delete are gated against the `Read` threshold — for
every existing record with access `Read` or `Write` and every caller, the
permission check at `Read` passes and both `write_data` and `delete_data`
succeed, so any caller who can read the record can overwrite or delete it. -/
theorem claim3_read_threshold {α : Type} [DecidableEq α] [Inhabited α]
    (st : MetaStore α) (user : α) (data_id : DataId) (data : UserData α)
    (wd : Bytes) (h : st data_id = some data)
    (hacc : data.access = Access.Read ∨ data.access = Access.Write) :
    check_op_access user data Access.Read = true
    ∧ (write_data st user data_id wd).result = Except.ok ()
    ∧ (delete_data st user data_id).result = Except.ok () := by
  have hchk : check_op_access user data Access.Read = true := by
    rcases hacc with ha | ha <;> simp [check_op_access, ha, access_value]
  refine ⟨hchk, ?_, ?_⟩ <;>
    simp [write_data, delete_data, existsId_of_some h, get_data_of_some h, hchk]

/-- Witness for C3: record authored by 1 with access `Read`, caller 2. -/
theorem claim3_read_threshold_witness :
    singleMeta [1] ⟨1, Access.Read⟩ [1] = some ⟨1, Access.Read⟩
    ∧ ((⟨1, Access.Read⟩ : UserData Nat).access = Access.Read
       ∨ (⟨1, Access.Read⟩ : UserData Nat).access = Access.Write)
    ∧ (check_op_access 2 (⟨1, Access.Read⟩ : UserData Nat) Access.Read = true
       ∧ (write_data (singleMeta [1] ⟨1, Access.Read⟩) 2 [1] [7]).result = Except.ok ()
       ∧ (delete_data (singleMeta [1] ⟨1, Access.Read⟩) 2 [1]).result = Except.ok ()) :=
  ⟨rfl, Or.inl rfl,
    claim3_read_threshold (singleMeta [1] ⟨1, Access.Read⟩) 2 [1]
      ⟨1, Access.Read⟩ [7] rfl (Or.inl rfl)⟩

/-- Claim C4: for every existing record and every access level, including
`Avoid`, when the caller is the record's author none of the three operations
fails with `PermissionDenied`. -/
theorem claim4_author_never_denied {α : Type} [DecidableEq α] [Inhabited α]
    (bget : DataId → Bytes) (st : MetaStore α) (user : α) (data_id : DataId)
    (data : UserData α) (wd : Bytes) (h : st data_id = some data)
    (hauth : user = data.author) :
    (read_data bget st user data_id).result ≠ Except.error Error.PermissionDenied
    ∧ (write_data st user data_id wd).result ≠ Except.error Error.PermissionDenied
    ∧ (delete_data st user data_id).result ≠ Except.error Error.PermissionDenied := by
  have hchk : check_op_access user data Access.Read = true := by
    simp [check_op_access, hauth]
  refine ⟨?_, ?_, ?_⟩ <;>
    simp [read_data, write_data, delete_data, existsId_of_some h,
      get_data_of_some h, hchk]

/-- Witness for C4: record authored by 1 with access `Avoid`, caller 1. -/
theorem claim4_author_never_denied_witness :
    singleMeta [1] ⟨1, Access.Avoid⟩ [1] = some ⟨1, Access.Avoid⟩
    ∧ (1 : Nat) = (⟨1, Access.Avoid⟩ : UserData Nat).author
    ∧ ((read_data idBget (singleMeta [1] ⟨1, Access.Avoid⟩) 1 [1]).result
         ≠ Except.error Error.PermissionDenied
       ∧ (write_data (singleMeta [1] ⟨1, Access.Avoid⟩) 1 [1] [7]).result
         ≠ Except.error Error.PermissionDenied
       ∧ (delete_data (singleMeta [1] ⟨1, Access.Avoid⟩) 1 [1]).result
         ≠ Except.error Error.PermissionDenied) :=
  ⟨rfl, rfl,
    claim4_author_never_denied idBget (singleMeta [1] ⟨1, Access.Avoid⟩) 1 [1]
      ⟨1, Access.Avoid⟩ [7] rfl rfl⟩

/-- Claim C5: for every existing record and every caller other than the
author — with access `Avoid`, all three operations fail with
`PermissionDenied`; with access `Read` or `Write`, `read_data` succeeds. -/
theorem claim5_non_author {α : Type} [DecidableEq α] [Inhabited α]
    (bget : DataId → Bytes) (st : MetaStore α) (user : α) (data_id : DataId)
    (data : UserData α) (wd : Bytes) (h : st data_id = some data)
    (hauth : user ≠ data.author) :
    (data.access = Access.Avoid →
      (read_data bget st user data_id).result = Except.error Error.PermissionDenied
      ∧ (write_data st user data_id wd).result = Except.error Error.PermissionDenied
      ∧ (delete_data st user data_id).result = Except.error Error.PermissionDenied)
    ∧ ((data.access = Access.Read ∨ data.access = Access.Write) →
      (read_data bget st user data_id).result = Except.ok ()) := by
  constructor
  · intro ha
    have hchk : check_op_access user data Access.Read = false := by
      simp [check_op_access, ha, access_value, hauth]
    refine ⟨?_, ?_, ?_⟩ <;>
      simp [read_data, write_data, delete_data, existsId_of_some h,
        get_data_of_some h, hchk]
  · intro ha
    have hchk : check_op_access user data Access.Read = true := by
      rcases ha with ha | ha <;> simp [check_op_access, ha, access_value]
    simp [read_data, existsId_of_some h, get_data_of_some h, hchk]

/-- Witness for C5: record authored by 1 with access `Avoid`, caller 2. -/
theorem claim5_non_author_witness :
    singleMeta [1] ⟨1, Access.Avoid⟩ [1] = some ⟨1, Access.Avoid⟩
    ∧ (2 : Nat) ≠ (⟨1, Access.Avoid⟩ : UserData Nat).author
    ∧ (((⟨1, Access.Avoid⟩ : UserData Nat).access = Access.Avoid →
        (read_data idBget (singleMeta [1] ⟨1, Access.Avoid⟩) 2 [1]).result
          = Except.error Error.PermissionDenied
        ∧ (write_data (singleMeta [1] ⟨1, Access.Avoid⟩) 2 [1] [7]).result
          = Except.error Error.PermissionDenied
        ∧ (delete_data (singleMeta [1] ⟨1, Access.Avoid⟩) 2 [1]).result
          = Except.error Error.PermissionDenied)
      ∧ (((⟨1, Access.Avoid⟩ : UserData Nat).access = Access.Read
          ∨ (⟨1, Access.Avoid⟩ : UserData Nat).access = Access.Write) →
        (read_data idBget (singleMeta [1] ⟨1, Access.Avoid⟩) 2 [1]).result
          = Except.ok ())) :=
  ⟨rfl, by decide,
    claim5_non_author idBget (singleMeta [1] ⟨1, Access.Avoid⟩) 2 [1]
      ⟨1, Access.Avoid⟩ [7] rfl (by decide)⟩

/-- Claim C6: for every identifier with an existing metadata record, a
successful `write_data` re-inserts the pre-existing record, so the metadata
store is unchanged (author and access unchanged); the only effect is the
single backend `set` call carrying the new payload. -/
theorem claim6_write_preserves_record {α : Type} [DecidableEq α] [Inhabited α]
    (st : MetaStore α) (user : α) (data_id : DataId) (data : UserData α)
    (wd : Bytes) (h : st data_id = some data)
    (hok : (write_data st user data_id wd).result = Except.ok ()) :
    (write_data st user data_id wd).meta = st
    ∧ (write_data st user data_id wd).calls = [BackendCall.set data_id wd] := by
  by_cases hchk : check_op_access user (MetaStore.get_data st data_id) Access.Read = true
  · have hins : MetaStore.insert st data_id (MetaStore.get_data st data_id) = st := by
      funext k
      by_cases hk : k = data_id
      · simp [MetaStore.insert, hk, get_data_of_some h, h]
      · simp [MetaStore.insert, hk]
    constructor <;> simp [write_data, hchk, hins]
  · exfalso
    rw [write_data] at hok
    simp [hchk] at hok

/-- Witness for C6: record authored by 1 with access `Write`, caller 2. -/
theorem claim6_write_preserves_record_witness :
    singleMeta [1] ⟨1, Access.Write⟩ [1] = some ⟨1, Access.Write⟩
    ∧ (write_data (singleMeta [1] ⟨1, Access.Write⟩) 2 [1] [7]).result = Except.ok ()
    ∧ ((write_data (singleMeta [1] ⟨1, Access.Write⟩) 2 [1] [7]).meta
         = singleMeta [1] ⟨1, Access.Write⟩
       ∧ (write_data (singleMeta [1] ⟨1, Access.Write⟩) 2 [1] [7]).calls
         = [BackendCall.set [1] [7]]) :=
  ⟨rfl, rfl,
    claim6_write_preserves_record (singleMeta [1] ⟨1, Access.Write⟩) 2 [1]
      ⟨1, Access.Write⟩ [7] rfl rfl⟩

/-- Claim C7: for every identifier with an existing record, a successful
`delete_data` makes exactly the backend `delete` call for that identifier and
removes the metadata record, so existence afterwards is false. -/
theorem claim7_delete_removes {α : Type} [DecidableEq α] [Inhabited α]
    (st : MetaStore α) (user : α) (data_id : DataId) (data : UserData α)
    (h : st data_id = some data)
    (hok : (delete_data st user data_id).result = Except.ok ()) :
    (delete_data st user data_id).calls = [BackendCall.delete data_id]
    ∧ (delete_data st user data_id).meta data_id = none
    ∧ MetaStore.existsId (delete_data st user data_id).meta data_id = false := by
  by_cases hchk : check_op_access user (MetaStore.get_data st data_id) Access.Read = true
  · refine ⟨?_, ?_, ?_⟩ <;>
      simp [delete_data, existsId_of_some h, h, hchk, MetaStore.remove,
        MetaStore.existsId]
  · exfalso
    rw [delete_data] at hok
    simp [existsId_of_some h, hchk] at hok

/-- Witness for C7: record authored by 1 with access `Read`, deleted by 1. -/
theorem claim7_delete_removes_witness :
    singleMeta [1] ⟨1, Access.Read⟩ [1] = some ⟨1, Access.Read⟩
    ∧ (delete_data (singleMeta [1] ⟨1, Access.Read⟩) 1 [1]).result = Except.ok ()
    ∧ ((delete_data (singleMeta [1] ⟨1, Access.Read⟩) 1 [1]).calls
         = [BackendCall.delete [1]]
       ∧ (delete_data (singleMeta [1] ⟨1, Access.Read⟩) 1 [1]).meta [1] = none
       ∧ MetaStore.existsId (delete_data (singleMeta [1] ⟨1, Access.Read⟩) 1 [1]).meta [1]
         = false) :=
  ⟨rfl, rfl,
    claim7_delete_removes (singleMeta [1] ⟨1, Access.Read⟩) 1 [1]
      ⟨1, Access.Read⟩ rfl rfl⟩

/-- Claim C8: every successful `read_data` deposits exactly one `GetData`
event whose payload is exactly the bytes returned by the backend `get` call
for that identifier, and makes exactly that one backend call. -/
theorem claim8_read_event {α : Type} [DecidableEq α] [Inhabited α]
    (bget : DataId → Bytes) (st : MetaStore α) (user : α) (data_id : DataId)
    (hok : (read_data bget st user data_id).result = Except.ok ()) :
    (read_data bget st user data_id).events = [Event.GetData (bget data_id)]
    ∧ (read_data bget st user data_id).calls = [BackendCall.get data_id] := by
  by_cases hex : MetaStore.existsId st data_id = true
  · by_cases hchk : check_op_access user (MetaStore.get_data st data_id) Access.Read = true
    · constructor <;> simp [read_data, hex, hchk]
    · exfalso
      rw [read_data] at hok
      simp [hex, hchk] at hok
  · exfalso
    rw [read_data] at hok
    simp [hex] at hok

/-- Witness for C8: record authored by 1 with access `Read`, read by 2. -/
theorem claim8_read_event_witness :
    (read_data idBget (singleMeta [1] ⟨1, Access.Read⟩) 2 [1]).result = Except.ok ()
    ∧ ((read_data idBget (singleMeta [1] ⟨1, Access.Read⟩) 2 [1]).events
         = [Event.GetData (idBget [1])]
       ∧ (read_data idBget (singleMeta [1] ⟨1, Access.Read⟩) 2 [1]).calls
         = [BackendCall.get [1]]) :=
  ⟨rfl, claim8_read_event idBget (singleMeta [1] ⟨1, Access.Read⟩) 2 [1] rfl⟩

/-- Claim C9: whenever one of the three operations returns an error, it has no
side effects — the metadata store is unchanged, no backend call is made and no
event is deposited; moreover `write_data` and `delete_data` never deposit an
event, so only a successful read emits a notification. -/
theorem claim9_errors_no_side_effects {α : Type} [DecidableEq α] [Inhabited α]
    (bget : DataId → Bytes) (st : MetaStore α) (user : α) (data_id : DataId)
    (wd : Bytes) (e : Error) :
    ((read_data bget st user data_id).result = Except.error e →
      (read_data bget st user data_id).meta = st
      ∧ (read_data bget st user data_id).calls = []
      ∧ (read_data bget st user data_id).events = [])
    ∧ ((write_data st user data_id wd).result = Except.error e →
      (write_data st user data_id wd).meta = st
      ∧ (write_data st user data_id wd).calls = []
      ∧ (write_data st user data_id wd).events = [])
    ∧ ((delete_data st user data_id).result = Except.error e →
      (delete_data st user data_id).meta = st
      ∧ (delete_data st user data_id).calls = []
      ∧ (delete_data st user data_id).events = [])
    ∧ (write_data st user data_id wd).events = []
    ∧ (delete_data st user data_id).events = [] := by
  by_cases hex : MetaStore.existsId st data_id = true <;>
    by_cases hchk : check_op_access user (MetaStore.get_data st data_id) Access.Read
        = true <;>
      refine ⟨?_, ?_, ?_, ?_, ?_⟩ <;>
        simp [read_data, write_data, delete_data, hex, hchk]

/-- Witness for C9: denied read by non-author 2 on an `Avoid` record. -/
theorem claim9_errors_no_side_effects_witness :
    ((read_data idBget (singleMeta [1] ⟨1, Access.Avoid⟩) 2 [1]).result
        = Except.error Error.PermissionDenied →
      (read_data idBget (singleMeta [1] ⟨1, Access.Avoid⟩) 2 [1]).meta
        = singleMeta [1] ⟨1, Access.Avoid⟩
      ∧ (read_data idBget (singleMeta [1] ⟨1, Access.Avoid⟩) 2 [1]).calls = []
      ∧ (read_data idBget (singleMeta [1] ⟨1, Access.Avoid⟩) 2 [1]).events = [])
    ∧ ((write_data (singleMeta [1] ⟨1, Access.Avoid⟩) 2 [1] [7]).result
        = Except.error Error.PermissionDenied →
      (write_data (singleMeta [1] ⟨1, Access.Avoid⟩) 2 [1] [7]).meta
        = singleMeta [1] ⟨1, Access.Avoid⟩
      ∧ (write_data (singleMeta [1] ⟨1, Access.Avoid⟩) 2 [1] [7]).calls = []
      ∧ (write_data (singleMeta [1] ⟨1, Access.Avoid⟩) 2 [1] [7]).events = [])
    ∧ ((delete_data (singleMeta [1] ⟨1, Access.Avoid⟩) 2 [1]).result
        = Except.error Error.PermissionDenied →
      (delete_data (singleMeta [1] ⟨1, Access.Avoid⟩) 2 [1]).meta
        = singleMeta [1] ⟨1, Access.Avoid⟩
      ∧ (delete_data (singleMeta [1] ⟨1, Access.Avoid⟩) 2 [1]).calls = []
      ∧ (delete_data (singleMeta [1] ⟨1, Access.Avoid⟩) 2 [1]).events = [])
    ∧ (write_data (singleMeta [1] ⟨1, Access.Avoid⟩) 2 [1] [7]).events = []
    ∧ (delete_data (singleMeta [1] ⟨1, Access.Avoid⟩) 2 [1]).events = [] :=
  claim9_errors_no_side_effects idBget (singleMeta [1] ⟨1, Access.Avoid⟩) 2 [1]
    [7] Error.PermissionDenied

/-- Claim C10: for every caller and every identifier with no existing record,
`write_data` succeeds (the permission check runs against the default record,
whose access `Read` meets the `Read` threshold for every caller), and the
record then stored is the default record, whose author is the default
identity — so a caller distinct from the default identity does not become the
author of the record it creates. -/
theorem claim10_write_default_author {α : Type} [DecidableEq α] [Inhabited α]
    (st : MetaStore α) (user : α) (data_id : DataId) (wd : Bytes)
    (h : st data_id = none) :
    (write_data st user data_id wd).result = Except.ok ()
    ∧ (write_data st user data_id wd).meta data_id = some defaultUserData
    ∧ (defaultUserData : UserData α).author = default
    ∧ (user ≠ (default : α) →
      ((write_data st user data_id wd).meta data_id).map UserData.author
        ≠ some user) := by
  have hgd : MetaStore.get_data st data_id = defaultUserData := by
    simp [MetaStore.get_data, h]
  have hchk : check_op_access user (defaultUserData : UserData α) Access.Read = true := by
    simp [check_op_access, defaultUserData, access_value]
  have hmeta : (write_data st user data_id wd).meta data_id = some defaultUserData := by
    simp [write_data, hgd, hchk, MetaStore.insert]
  refine ⟨?_, hmeta, rfl, ?_⟩
  · simp [write_data, hgd, hchk]
  · intro hu hmap
    rw [hmeta] at hmap
    simp [defaultUserData] at hmap
    exact hu hmap.symm

/-- Witness for C10: caller 5 writes to an absent identifier; the stored
author is the default identity 0, not 5. -/
theorem claim10_write_default_author_witness :
    emptyMeta [1] = none
    ∧ ((write_data emptyMeta 5 [1] [7]).result = Except.ok ()
       ∧ (write_data emptyMeta 5 [1] [7]).meta [1] = some defaultUserData
       ∧ (defaultUserData : UserData Nat).author = default
       ∧ ((5 : Nat) ≠ (default : Nat) →
         ((write_data emptyMeta 5 [1] [7]).meta [1]).map UserData.author
           ≠ some 5)) :=
  ⟨rfl, claim10_write_default_author emptyMeta 5 [1] [7] rfl⟩

end OffchainStorage
